import Mathlib

/-!
Shallow embedding of the FlightAgent orchestrator core
(`orchestrator/app.py`, `orchestrator/intent_parser.py`,
`orchestrator/models/flight_models.py`, `orchestrator/tools/base_tool.py`,
`orchestrator/tools/mcp_tool.py`).

Python strings are modelled as `List Char`; Python `float` amounts as `ℚ`
(no claim depends on floating-point rounding); machine-level concerns do
not arise.  Dictionaries are modelled either as structures (flight-result
records, whose field set is fixed by the code that reads them) or as
association lists (the exchange-rate table).  The ISO date strings produced
by `datetime.date.isoformat` are modelled by the day number of the date
(`isoformat` is injective on dates, so observable equality is preserved).
-/

/-! Section: Python string helpers (ASCII fragment used by the repository) -/

/-- Python `str.lower` (ASCII). -/
def pyLower (s : List Char) : List Char := s.map Char.toLower

/-- Python `str.upper` (ASCII). -/
def pyUpper (s : List Char) : List Char := s.map Char.toUpper

/-- Python whitespace for `\s` / `str.strip` (ASCII fragment; the repo's
texts only contain plain spaces). -/
def isPySpace (c : Char) : Bool :=
  c == ' ' || c == '\t' || c == '\n' || c == '\r'

/-- Python `str.strip()`. -/
def pyStrip (s : List Char) : List Char :=
  ((s.dropWhile isPySpace).reverse.dropWhile isPySpace).reverse

/-- Does `s` start with the pattern `p`? -/
def leadsWith : List Char → List Char → Bool
  | [], _ => true
  | _ :: _, [] => false
  | p :: ps, c :: cs => p == c && leadsWith ps cs

/-- Python `p in s` (substring containment). -/
def hasSub (p : List Char) : List Char → Bool
  | [] => leadsWith p []
  | c :: cs => leadsWith p (c :: cs) || hasSub p cs

/-- Python `str.title()` (ASCII): first alphabetic character of each run is
upper-cased, the rest lower-cased. -/
def pyTitleGo : Bool → List Char → List Char
  | _, [] => []
  | prev, c :: cs =>
      let c2 := if c.isAlpha then (if prev then c.toLower else c.toUpper) else c
      c2 :: pyTitleGo c.isAlpha cs

/-- Python `str.title()` entry point. -/
def pyTitle (s : List Char) : List Char := pyTitleGo false s

/-- Digits of a matched `\d+` group to the number `int`/`float` builds. -/
def charsToNat (s : List Char) : Nat :=
  s.foldl (fun acc c => acc * 10 + (c.toNat - 48)) 0

/-- Decimal rendering of a natural number (Python `str(n)` / f-string). -/
def natToChars (n : Nat) : List Char := Nat.toDigits 10 n

/-! Section: Calendar arithmetic (`datetime.date`)

Dates are identified with their day number relative to 1970-01-01
(Howard Hinnant's `days_from_civil`, the algorithm underlying
`datetime.date.toordinal` up to an offset).  All years used by the code are
positive, so the arithmetic stays in `Nat` before the final shift. -/

def isLeapYear (y : Nat) : Bool :=
  y % 4 == 0 && (y % 100 != 0 || y % 400 == 0)

def daysInMonth (y m : Nat) : Nat :=
  if m = 2 then (if isLeapYear y then 29 else 28)
  else if m = 4 ∨ m = 6 ∨ m = 9 ∨ m = 11 then 30
  else 31

/-- Day number of the civil date `y-m-d` relative to 1970-01-01. -/
def daysFromCivil (y m d : Nat) : Int :=
  let yAdj : Nat := if m ≤ 2 then y - 1 else y
  let era : Nat := yAdj / 400
  let yoe : Nat := yAdj - era * 400
  let mp : Nat := (m + 9) % 12
  let doy : Nat := (153 * mp + 2) / 5 + d - 1
  let doe : Nat := yoe * 365 + yoe / 4 - yoe / 100 + doy
  (era : Int) * 146097 + (doe : Int) - 719468

/-- A concrete `datetime.date` value (`date.today()` is a parameter of the
embedding). -/
structure PyDate where
  year : Nat
  month : Nat
  day : Nat
deriving DecidableEq, Repr

/-- Day number of a `PyDate`. -/
def dayNum (d : PyDate) : Int := daysFromCivil d.year d.month d.day

/-- Python `date.weekday()`: Monday = 0 (1970-01-01 was a Thursday). -/
def pyWeekday (d : PyDate) : Nat := ((dayNum d + 3) % 7).toNat

/-- Month number accepted by `datetime.strptime` for format `%B`
(full month names; the scanned text is already lower-cased). -/
def monthOfName (w : List Char) : Option Nat :=
  if w = "january".toList then some 1
  else if w = "february".toList then some 2
  else if w = "march".toList then some 3
  else if w = "april".toList then some 4
  else if w = "may".toList then some 5
  else if w = "june".toList then some 6
  else if w = "july".toList then some 7
  else if w = "august".toList then some 8
  else if w = "september".toList then some 9
  else if w = "october".toList then some 10
  else if w = "november".toList then some 11
  else if w = "december".toList then some 12
  else none

/-- Embedding of `datetime.strptime(f"{d} {month_str} {year}", "%d %B %Y").date()` as an
`Option`: `none` models the `ValueError` that the parser swallows. -/
def calParse (y d : Nat) (w : List Char) : Option Int :=
  match monthOfName w with
  | none => none
  | some m => if 1 ≤ d ∧ d ≤ daysInMonth y m then some (daysFromCivil y m d) else none

/-! Section: `app.py`: `normalize_price` -/

/-- Embedding of `normalize_price(amount, from_currency, to_currency)` from `app.py`
(lines 128-148), with the module-level `_EXCHANGE_RATES` dict made an
explicit parameter.  Note the `if not _EXCHANGE_RATES: return None` check
runs before the equal-currency short-circuit.  A zero base rate makes the
Python float division raise `ZeroDivisionError`, absorbed by the
surrounding `except` into `None`. -/
def normalize_price (amount : ℚ) (from_currency to_currency : List Char)
    (rates : List (List Char × ℚ)) : Option ℚ :=
  if rates.isEmpty then none
  else if from_currency = to_currency then some amount
  else
    match rates.lookup from_currency, rates.lookup to_currency with
    | some base_rate, some target_rate =>
        if base_rate = 0 then none else some (amount / base_rate * target_rate)
    | some _, none => none
    | none, _ => none

/-! Section: `models/flight_models.py`: `FlightQuery.validate_intent` -/

/-- The `allowed` set of `validate_intent`. -/
def allowedIntents : List (List Char) :=
  ["cheapest".toList, "price_range".toList, "earliest".toList,
   "direct".toList, "cabin_filter".toList, "day_compare".toList]

/-- Embedding of `FlightQuery.validate_intent` (`flight_models.py` lines 16-23): any
value outside the allowed set is coerced to `"cheapest"` (with a printed
warning); allowed values pass through. -/
def validate_intent (v : List Char) : List Char :=
  if v ∈ allowedIntents then v else "cheapest".toList

/-! Section: `app.py`: `detect_region_from_ip` -/

/-- The region dict `{"country": c, "currency": u, "region": r}`. -/
structure RegionD where
  country : List Char
  currency : List Char
  region : List Char
deriving DecidableEq, Repr

/-- The hard-coded fallback region. -/
def defaultRegion : RegionD := ⟨"IN".toList, "INR".toList, "IN".toList⟩

/-- The JSON body of a geolocation response, restricted to the keys the
code reads (string-valued keys modelled as optionally present). -/
structure GeoData where
  country : Option (List Char)
  country_code : Option (List Char)
  currency : Option (List Char)
  currency_code : Option (List Char)
deriving DecidableEq

/-- Outcome of the external `requests.get` call inside
`detect_region_from_ip`: either a response arrived (with the result of
`resp.json()`, `none` when parsing raises) or the request itself raised
(timeout, connection error, URL-template formatting error, ...). -/
inductive GeoResult
  | response (status : Nat) (body : Option GeoData)
  | failure
deriving DecidableEq

/-- Embedding of `detect_region_from_ip` (`app.py` lines 98-125).  `ip` is the
`ip_address` argument (`none`/empty are falsy), `provider` the
`IP_GEO_PROVIDER` env value, `res` the outcome of the external call (only
consulted when a provider is configured).  The whole provider interaction
is wrapped in `try/except`, so the function always returns a region. -/
def detect_region_from_ip (ip : Option (List Char)) (provider : List Char)
    (res : GeoResult) : RegionD :=
  if ip = none ∨ ip = some [] then defaultRegion
  else
    if pyStrip provider = [] then defaultRegion
    else
      match res with
      | .failure => defaultRegion
      | .response status body =>
          if status = 200 then
            match body with
            | none => defaultRegion
            | some data =>
                let country := data.country.getD (data.country_code.getD "IN".toList)
                let currency := data.currency.getD (data.currency_code.getD "INR".toList)
                ⟨country, currency, country⟩
          else defaultRegion

/-! Section: Retrying HTTP clients
(`tools/base_tool.py` `call_http_with_retry`, lines 42-98, and
`tools/mcp_tool.py` `_call_mcp_search_with_retry`, lines 29-82)

Both functions run the same loop; they differ only in the error codes and
message templates of the `OrchestratorException`s they build, captured by a
`RetryCfg` record so that each Python function corresponds to one concrete
configuration below.  Per-attempt behaviour of the network is a parameter
`outcomes : Nat → AttemptOutcome` (the outcome the world produces for
attempt number `i`, 1-based, matching the loop variable `attempt`).

A crucial detail mirrored from the source: the deliberate
`raise OrchestratorException(...)` on a non-retryable HTTP status sits
inside the same `try` block whose final `except Exception` clause catches
every `Exception`.  `OrchestratorException` derives from `Exception`
(`exceptions.py` line 10), so that raise is intercepted and re-raised as
the "unexpected error" kind (`HTTP_UNEXPECTED_ERROR` / `MCP_UNEXPECTED_ERROR`)
whose message wraps `str(e)` (which is the original message, set via
`super().__init__(message)`), and whose `status_code` falls back to the
constructor default `500`. -/

/-- Fields of an `OrchestratorException` (`exceptions.py` lines 10-16). -/
structure PyError where
  message : List Char
  code : List Char
  status_code : Nat
deriving DecidableEq, Repr

/-- What one loop iteration observes from `requests.post`/`requests.get`:
a response (status code, result of `resp.json()` with `.error m` for a
parse exception whose `str` is `m`, and `resp.text`), a timeout, a
connection error, or any other exception raised inside the `try` block
(carrying its `str`). -/
inductive AttemptOutcome
  | response (status : Nat) (jsonBody : Except (List Char) (List Char)) (text : List Char)
  | timeout
  | connError
  | otherError (msg : List Char)

/-- Result of the whole call: the parsed 200 body, or the raised
`OrchestratorException`. -/
inductive RetryOutcome
  | ok (body : List Char)
  | error (e : PyError)
deriving DecidableEq, Repr

/-- Observable trace of one call: its result, the backoff sleeps incurred
(`time.sleep` arguments, in order), and how many attempts were started. -/
structure RetryTrace where
  result : RetryOutcome
  sleeps : List ℚ
  attemptsMade : Nat
deriving DecidableEq, Repr

/-- The message/code data distinguishing `call_http_with_retry` from
`_call_mcp_search_with_retry`. -/
structure RetryCfg where
  nonRetryableMsg : Nat → List Char → List Char
  wrapMsg : List Char → List Char
  unexpectedCode : List Char
  exhaustedErr : PyError

/-- One spin of the `for attempt in range(1, max_retries + 1)` loop plus
the recursion for the remaining iterations.  `remaining` counts the
iterations the `range` still yields; the exhaustion error is raised after
the loop.  The retryable branch (`429/502/503/504`, timeout, connection
error) sleeps `base_delay * 2 ** (attempt - 1)` and continues — including
on the final iteration. -/
def retryGo (cfg : RetryCfg) (outcomes : Nat → AttemptOutcome)
    (base_delay : ℚ) (attempt : Nat) : Nat → RetryTrace
  | 0 => ⟨.error cfg.exhaustedErr, [], 0⟩
  | remaining + 1 =>
      match outcomes attempt with
      | .response status jsonBody text =>
          if status = 200 then
            match jsonBody with
            | .ok b => ⟨.ok b, [], 1⟩
            | .error m =>
                ⟨.error ⟨cfg.wrapMsg m, cfg.unexpectedCode, 500⟩, [], 1⟩
          else if status = 429 ∨ status = 502 ∨ status = 503 ∨ status = 504 then
            let wait := base_delay * 2 ^ (attempt - 1)
            let rest := retryGo cfg outcomes base_delay (attempt + 1) remaining
            ⟨rest.result, wait :: rest.sleeps, rest.attemptsMade + 1⟩
          else
            ⟨.error ⟨cfg.wrapMsg (cfg.nonRetryableMsg status text),
                     cfg.unexpectedCode, 500⟩, [], 1⟩
      | .timeout =>
          let wait := base_delay * 2 ^ (attempt - 1)
          let rest := retryGo cfg outcomes base_delay (attempt + 1) remaining
          ⟨rest.result, wait :: rest.sleeps, rest.attemptsMade + 1⟩
      | .connError =>
          let wait := base_delay * 2 ^ (attempt - 1)
          let rest := retryGo cfg outcomes base_delay (attempt + 1) remaining
          ⟨rest.result, wait :: rest.sleeps, rest.attemptsMade + 1⟩
      | .otherError msg =>
          ⟨.error ⟨cfg.wrapMsg msg, cfg.unexpectedCode, 500⟩, [], 1⟩

/-- Configuration of `call_http_with_retry` (`base_tool.py`): the
non-retryable branch builds `"Server returned {status}: {text}"` with code
`REMOTE_API_ERROR` — but that exception is caught by the function's own
`except Exception` and re-raised wrapped as `"Unexpected error: {str(e)}"`
with code `HTTP_UNEXPECTED_ERROR`; exhaustion raises
`"Failed to reach {url} after {max_retries} retries."` with
`REMOTE_API_UNAVAILABLE` / 503. -/
def baseToolCfg (url : List Char) (max_retries : Nat) : RetryCfg where
  nonRetryableMsg := fun status text =>
    "Server returned ".toList ++ natToChars status ++ ": ".toList ++ text
  wrapMsg := fun inner => "Unexpected error: ".toList ++ inner
  unexpectedCode := "HTTP_UNEXPECTED_ERROR".toList
  exhaustedErr :=
    ⟨"Failed to reach ".toList ++ url ++ " after ".toList ++
       natToChars max_retries ++ " retries.".toList,
     "REMOTE_API_UNAVAILABLE".toList, 503⟩

/-- Embedding of `call_http_with_retry(url, ..., max_retries, base_delay, ...)`. -/
def call_http_with_retry (url : List Char) (outcomes : Nat → AttemptOutcome)
    (max_retries : Nat) (base_delay : ℚ) : RetryTrace :=
  retryGo (baseToolCfg url max_retries) outcomes base_delay 1 max_retries

/-- Configuration of `_call_mcp_search_with_retry` (`mcp_tool.py`): the
non-retryable branch builds `"MCP returned HTTP {status}: {error_body}"`
with code `MCP_ERROR`, likewise swallowed by the generic `except` and
re-raised as `"Unexpected error while calling MCP: {str(e)}"` with code
`MCP_UNEXPECTED_ERROR`; exhaustion raises
`"MCP service not reachable after multiple retries."` with
`MCP_UNAVAILABLE` / 503. -/
def mcpToolCfg : RetryCfg where
  nonRetryableMsg := fun status text =>
    "MCP returned HTTP ".toList ++ natToChars status ++ ": ".toList ++ text
  wrapMsg := fun inner => "Unexpected error while calling MCP: ".toList ++ inner
  unexpectedCode := "MCP_UNEXPECTED_ERROR".toList
  exhaustedErr :=
    ⟨"MCP service not reachable after multiple retries.".toList,
     "MCP_UNAVAILABLE".toList, 503⟩

/-- Embedding of `_call_mcp_search_with_retry(flight_query, max_retries, base_delay)`. -/
def call_mcp_search_with_retry (outcomes : Nat → AttemptOutcome)
    (max_retries : Nat) (base_delay : ℚ) : RetryTrace :=
  retryGo mcpToolCfg outcomes base_delay 1 max_retries

/-- The per-attempt outcomes classified as retryable by both loops:
HTTP 429/502/503/504, timeouts, connection errors. -/
def retryableOutcome : AttemptOutcome → Prop
  | .response status _ _ => status = 429 ∨ status = 502 ∨ status = 503 ∨ status = 504
  | .timeout => True
  | .connError => True
  | .otherError _ => False

/-! Section: `app.py`: `merge_and_dedupe_results` (lines 152-181)

The Python function walks a list of result dicts, mutating a `seen` map
and the `region_sources` list held inside earlier *copies* of results.
Mutation is made explicit with a store: `store : List FlightObj` is the
heap of result dicts, and the input list holds indices (references) into
it.  `dict(r)` allocates a fresh copy at the end of the store; the
canonical copies are the only objects ever mutated. -/

/-- A flight-result dict, restricted to the keys `merge_and_dedupe_results`
reads or writes.  A missing key is `none` (`dict.get` default); a missing
`region_sources` key is the empty list (only read via
`.get("region_sources", [])`). -/
structure FlightObj where
  providerFlightId : Option (List Char)
  provider : Option (List Char)
  origin : Option (List Char)
  destination : Option (List Char)
  departureTime : Option (List Char)
  price : Option ℚ
  region_source : Option (List Char)
  region_sources : List (List Char)
deriving DecidableEq, Repr

/-- Placeholder object for out-of-range store reads (never hit on valid
references; theorems carry validity hypotheses). -/
def blankFlight : FlightObj := ⟨none, none, none, none, none, none, none, []⟩

/-- The merge key: `f"pid::{provider}::{pid}"` when `providerFlightId` is
truthy (non-`None`, non-empty), else
`f"anon::{provider}::{origin}::{destination}::{departureTime}::{price}"`.
The f-string rendering is modelled by the tuple it encodes. -/
inductive MergeKey
  | pid (provider : Option (List Char)) (id : List Char)
  | anon (provider origin destination departureTime : Option (List Char))
         (price : Option ℚ)
deriving DecidableEq

/-- Key of one result object (`pid = r.get("providerFlightId"); if pid:`). -/
def mergeKeyOf (o : FlightObj) : MergeKey :=
  match o.providerFlightId with
  | some p =>
      if p = [] then .anon o.provider o.origin o.destination o.departureTime o.price
      else .pid o.provider p
  | none => .anon o.provider o.origin o.destination o.departureTime o.price

/-- Truthiness of `src = r.get("region_source")` followed by the truthiness test
`if src` (Python: `None` and `""` are falsy). -/
def srcOf (o : FlightObj) : Option (List Char) :=
  match o.region_source with
  | some s => if s = [] then none else some s
  | none => none

/-- Total store read (`getObj store i` = the dict reference `i` points at). -/
def getObj (store : List FlightObj) (i : Nat) : FlightObj :=
  store.getD i blankFlight

/-- The mutable state of the loop: the heap, the `seen` dict (association
list from keys to canonical-copy references; keys are inserted at most
once, so lookup order is irrelevant), and the `merged` output list of
references. -/
structure MergeState where
  store : List FlightObj
  seen : List (MergeKey × Nat)
  merged : List Nat
deriving DecidableEq

/-- Lookup `key in seen` / `seen[key]` on the association list. -/
def findSeen (key : MergeKey) : List (MergeKey × Nat) → Option Nat
  | [] => none
  | (k, v) :: rest => if k = key then some v else findSeen key rest

/-- Initial `region_sources` of a fresh copy:
`[r.get("region_source")] if r.get("region_source") else []`. -/
def initSources (o : FlightObj) : List (List Char) :=
  match srcOf o with
  | some s => [s]
  | none => []

/-- One iteration of the `for r in all_results` loop.  When the key was
seen, a truthy `region_source` not yet recorded is appended to the
canonical copy's `region_sources` (in-place mutation, modelled by
`List.set`); otherwise a fresh shallow copy is allocated with
`region_sources` initialised from the result's own truthy `region_source`,
registered in `seen`, and appended to `merged`.  (The defensive
`except: continue` only fires on non-dict entries, which the `FlightObj`
store excludes by typing.) -/
def mergeStep (st : MergeState) (i : Nat) : MergeState :=
  let o := getObj st.store i
  let key := mergeKeyOf o
  match findSeen key st.seen with
  | some e =>
      let oe := getObj st.store e
      match srcOf o with
      | some s =>
          if s ∈ oe.region_sources then st
          else { st with
                 store := st.store.set e
                   { oe with region_sources := oe.region_sources ++ [s] } }
      | none => st
  | none =>
      let rcopy := { o with region_sources := initSources o }
      { store := st.store ++ [rcopy],
        seen := (key, st.store.length) :: st.seen,
        merged := st.merged ++ [st.store.length] }

/-- Embedding of `merge_and_dedupe_results(all_results)`: fold of the loop body over the
input references, starting from empty `seen`/`merged`. -/
def merge_and_dedupe_results (store : List FlightObj) (refs : List Nat) : MergeState :=
  refs.foldl mergeStep ⟨store, [], []⟩

/-! Section: `intent_parser.py`: `parse_user_query` (lines 11-136)

Each `re.search` call of the source is embedded as a dedicated leftmost
scanner for its concrete pattern, reproducing the greedy/backtracking
behaviour of the Python engine on that pattern.  The query dict is a
structure of optional fields (`none` = key absent). -/

/-- The `WEEKDAYS` dict, in insertion order (`intent_parser.py` lines 6-9). -/
def weekdaysList : List (List Char × Nat) :=
  [("monday".toList, 0), ("tuesday".toList, 1), ("wednesday".toList, 2),
   ("thursday".toList, 3), ("friday".toList, 4), ("saturday".toList, 5),
   ("sunday".toList, 6)]

/-- The query dict built by `parse_user_query`.  Dates are day numbers
(see the module comment), prices and the limit are the parsed numerals,
time bounds are the formatted `"HH:00"` strings. -/
structure PQuery where
  origin : Option (List Char)
  destination : Option (List Char)
  departDate : Option Int
  returnDate : Option Int
  minPrice : Option Nat
  maxPrice : Option Nat
  intent : Option (List Char)
  departAfter : Option (List Char)
  departBefore : Option (List Char)
  airline : Option (List Char)
  stops : Option Nat
  cabinClass : Option (List Char)
  limit : Option Nat
deriving DecidableEq, Repr

/-- Empty dict `query = {}`. -/
def emptyPQuery : PQuery :=
  ⟨none, none, none, none, none, none, none, none, none, none, none, none, none⟩

/-- Character class `[a-zA-Z\s]` of the route pattern. -/
def isRouteChar (c : Char) : Bool := c.isAlpha || isPySpace c

/-- Character class `\w` (`[a-zA-Z0-9_]`, ASCII fragment). -/
def isWordChar (c : Char) : Bool := c.isAlphanum || c == '_'

/-- Greedy backtracking for `([a-zA-Z\s]+) to ([a-zA-Z\s]+)` after the
literal `"from "`: try the longest class-char first group (length `k`,
counting down), requiring the literal `" to "` and a non-empty class-char
second group after it. -/
def routeSplit (rest : List Char) : Nat → Option (List Char × List Char)
  | 0 => none
  | k + 1 =>
      let tail := rest.drop (k + 1)
      if leadsWith " to ".toList tail &&
         (match tail.drop 4 with | c :: _ => isRouteChar c | [] => false) then
        some (rest.take (k + 1), (tail.drop 4).takeWhile isRouteChar)
      else routeSplit rest k

/-- Match `from ([a-zA-Z\s]+) to ([a-zA-Z\s]+)` anchored at the start of
`s`. -/
def routeMatchAt (s : List Char) : Option (List Char × List Char) :=
  if leadsWith "from ".toList s then
    let rest := s.drop 5
    routeSplit rest (rest.takeWhile isRouteChar).length
  else none

/-- Leftmost `re.search` for the route pattern: leftmost matching position. -/
def routeSearch : List Char → Option (List Char × List Char)
  | [] => none
  | c :: cs =>
      match routeMatchAt (c :: cs) with
      | some r => some r
      | none => routeSearch cs

/-- Rule 1: origin & destination (`.strip().upper()` on both captures). -/
def rule1 (t : List Char) (q : PQuery) : PQuery :=
  match routeSearch t with
  | some (x, y) =>
      { q with origin := some (pyUpper (pyStrip x)),
               destination := some (pyUpper (pyStrip y)) }
  | none => q

/-- After the day digits of `on (\d{1,2})(?:st|nd|rd|th)? (\w+)`: optional
ordinal suffix, mandatory space, non-empty `\w+` month word.  (The suffix
letters are never a space, so consuming a present suffix is forced.) -/
def onAfterDigits (s : List Char) : Option (List Char) :=
  let s2 :=
    if leadsWith "st".toList s ∨ leadsWith "nd".toList s ∨
       leadsWith "rd".toList s ∨ leadsWith "th".toList s then s.drop 2 else s
  match s2 with
  | ' ' :: rest =>
      let w := rest.takeWhile isWordChar
      if w.isEmpty then none else some w
  | _ => none

/-- Match `on (\d{1,2})(?:st|nd|rd|th)? (\w+)` anchored at the start of
`s`; `\d{1,2}` is greedy (two digits tried before one). -/
def onMatchAt (s : List Char) : Option (Nat × List Char) :=
  if leadsWith "on ".toList s then
    let r := s.drop 3
    match (r.takeWhile Char.isDigit).take 2 with
    | [] => none
    | [d1] => (onAfterDigits (r.drop 1)).map (fun w => (charsToNat [d1], w))
    | d1 :: d2 :: _ =>
        match onAfterDigits (r.drop 2) with
        | some w => some (charsToNat [d1, d2], w)
        | none =>
            match onAfterDigits (r.drop 1) with
            | some w => some (charsToNat [d1], w)
            | none => none
  else none

/-- Leftmost `re.search` for the calendar-date pattern. -/
def onSearch : List Char → Option (Nat × List Char)
  | [] => none
  | c :: cs =>
      match onMatchAt (c :: cs) with
      | some r => some r
      | none => onSearch cs

/-- First weekday name contained in the text, in `WEEKDAYS` insertion
order (the loop breaks on the first hit). -/
def firstWeekdayIn (t : List Char) : Option Nat :=
  (weekdaysList.find? (fun p => hasSub p.1 t)).map Prod.snd

/-- Rule 2: date handling.  `today`/`tomorrow`/`next weekend` are an
`if/elif` chain; in the final `else` branch the weekday-name loop runs
first and the calendar-date regex runs afterwards (overwriting
`departDate` when its `strptime` succeeds; a `ValueError` is swallowed
by `except: pass`). -/
def rule2 (t : List Char) (td : PyDate) (q : PQuery) : PQuery :=
  if hasSub "today".toList t then { q with departDate := some (dayNum td) }
  else if hasSub "tomorrow".toList t then
    { q with departDate := some (dayNum td + 1) }
  else if hasSub "next weekend".toList t then
    let ahead : Nat := (5 + 7 - pyWeekday td) % 7
    { q with departDate := some (dayNum td + ahead),
             returnDate := some (dayNum td + ahead + 1) }
  else
    let q1 :=
      match firstWeekdayIn t with
      | some w =>
          { q with departDate := some (dayNum td + ((w + 7 - pyWeekday td) % 7 : Nat)) }
      | none => q
    match onSearch t with
    | some (d, w) =>
        match calParse td.year d w with
        | some dn => { q1 with departDate := some dn }
        | none => q1
    | none => q1

/-- Rule 3: round trip (`returnDate = today + 3` only if unset). -/
def rule3 (t : List Char) (td : PyDate) (q : PQuery) : PQuery :=
  if hasSub "return".toList t ∨ hasSub "round trip".toList t then
    match q.returnDate with
    | none => { q with returnDate := some (dayNum td + 3) }
    | some _ => q
  else q

/-- Consume an optional literal character (`c?` in the pattern; the token
after it is always a digit or another optional literal, so consuming a
present occurrence is forced). -/
def optChar (c : Char) (s : List Char) : List Char :=
  match s with
  | x :: rest => if x == c then rest else s
  | [] => s

/-- Fragment `?₹?(\d+)` after a keyword: optional space, optional rupee sign,
then a non-empty greedy digit group. -/
def amountAfter (s : List Char) : Option (Nat × List Char) :=
  let r := optChar '₹' (optChar ' ' s)
  let ds := r.takeWhile Char.isDigit
  if ds.isEmpty then none else some (charsToNat ds, r.drop ds.length)

/-- Match `between ?₹?(\d+) and ?₹?(\d+)` anchored at the start of `s`. -/
def betweenMatchAt (s : List Char) : Option (Nat × Nat) :=
  if leadsWith "between".toList s then
    match amountAfter (s.drop 7) with
    | some (a, r2) =>
        if leadsWith " and".toList r2 then
          match amountAfter (r2.drop 4) with
          | some (b, _) => some (a, b)
          | none => none
        else none
    | none => none
  else none

/-- Leftmost `re.search` for the between pattern. -/
def betweenSearch : List Char → Option (Nat × Nat)
  | [] => none
  | c :: cs =>
      match betweenMatchAt (c :: cs) with
      | some r => some r
      | none => betweenSearch cs

/-- Match `kw ?₹?(\d+)` (for `under|below` and `above|over`) anchored at
the start of `s`, trying the alternatives in pattern order. -/
def kwAmountMatchAt (kws : List (List Char)) (s : List Char) : Option Nat :=
  match kws with
  | [] => none
  | kw :: rest =>
      if leadsWith kw s then
        match amountAfter (s.drop kw.length) with
        | some (n, _) => some n
        | none => kwAmountMatchAt rest s
      else kwAmountMatchAt rest s

/-- Leftmost `re.search` for a keyword-amount pattern. -/
def kwAmountSearch (kws : List (List Char)) : List Char → Option Nat
  | [] => none
  | c :: cs =>
      match kwAmountMatchAt kws (c :: cs) with
      | some r => some r
      | none => kwAmountSearch kws cs

/-- Rule 4: price range (`between ... and ...`, else `under/below N`,
else `above/over N`; the two single-bound branches are guarded by
substring tests and leave the query unchanged when the regex then finds
no match). -/
def rule4 (t : List Char) (q : PQuery) : PQuery :=
  match betweenSearch t with
  | some (a, b) =>
      { q with minPrice := some a, maxPrice := some b,
               intent := some "price_range".toList }
  | none =>
      if hasSub "under".toList t ∨ hasSub "below".toList t then
        match kwAmountSearch ["under".toList, "below".toList] t with
        | some n => { q with maxPrice := some n, intent := some "price_range".toList }
        | none => q
      else if hasSub "above".toList t ∨ hasSub "over".toList t then
        match kwAmountSearch ["above".toList, "over".toList] t with
        | some n => { q with minPrice := some n, intent := some "price_range".toList }
        | none => q
      else q

/-- Match `(\d{1,2})(?:[:\.](\d{2}))?\s*(am|pm)?` after the keyword of a
time pattern: greedy 1-2 digit hour, optional colon/dot plus exactly two
minute digits (parsed but discarded by the source), optional whitespace,
and whether group 3 is `"pm"`. -/
def timeAfterKw (r : List Char) : Option (Nat × Bool) :=
  match (r.takeWhile Char.isDigit).take 2 with
  | [] => none
  | ds =>
      let r2 := r.drop ds.length
      let r3 :=
        match r2 with
        | c :: d1 :: d2 :: rest =>
            if (c == ':' || c == '.') && d1.isDigit && d2.isDigit then rest else r2
        | _ => r2
      let r4 := r3.dropWhile isPySpace
      some (charsToNat ds, leadsWith "pm".toList r4)

/-- Match `kw (\d{1,2})...` anchored at the start of `s` (`kw` includes
the trailing space of the pattern). -/
def timeMatchAt (kw : List Char) (s : List Char) : Option (Nat × Bool) :=
  if leadsWith kw s then timeAfterKw (s.drop kw.length) else none

/-- Leftmost `re.search` for a time pattern. -/
def timeSearch (kw : List Char) : List Char → Option (Nat × Bool)
  | [] => none
  | c :: cs =>
      match timeMatchAt kw (c :: cs) with
      | some r => some r
      | none => timeSearch kw cs

/-- Formatting `f"{hour:02d}:00"`. -/
def fmtHour (h : Nat) : List Char :=
  (if h < 10 then '0' :: natToChars h else natToChars h) ++ ":00".toList

/-- Rule 5: time filters (`after`, then `before`; `pm` adds 12 when the
hour is below 12; minutes are dropped). -/
def rule5 (t : List Char) (q : PQuery) : PQuery :=
  let q1 :=
    match timeSearch "after ".toList t with
    | some (h, pm) =>
        let h2 := if pm ∧ h < 12 then h + 12 else h
        { q with departAfter := some (fmtHour h2) }
    | none => q
  match timeSearch "before ".toList t with
  | some (h, pm) =>
      let h2 := if pm ∧ h < 12 then h + 12 else h
      { q1 with departBefore := some (fmtHour h2) }
  | none => q1

/-- The list `airline_keywords` (`intent_parser.py` line 96). -/
def airlineKeywords : List (List Char) :=
  ["emirates".toList, "air india".toList, "indigo".toList,
   "qatar".toList, "lufthansa".toList, "spicejet".toList]

/-- Rule 6: airline preference; the loop has no `break`, so the last
matching keyword wins. -/
def rule6 (t : List Char) (q : PQuery) : PQuery :=
  airlineKeywords.foldl
    (fun acc a =>
      if hasSub a t then
        { acc with airline := some (pyTitle a),
                   intent := some "airline_filter".toList }
      else acc) q

/-- Rule 7: stops. -/
def rule7 (t : List Char) (q : PQuery) : PQuery :=
  if hasSub "nonstop".toList t ∨ hasSub "non-stop".toList t ∨
     hasSub "direct".toList t then
    { q with stops := some 0, intent := some "direct".toList }
  else if hasSub "1-stop".toList t ∨ hasSub "one stop".toList t then
    { q with stops := some 1 }
  else q

/-- Rule 8: cabin class. -/
def rule8 (t : List Char) (q : PQuery) : PQuery :=
  if hasSub "business".toList t then
    { q with cabinClass := some "Business".toList,
             intent := some "cabin_filter".toList }
  else if hasSub "premium economy".toList t then
    { q with cabinClass := some "Premium Economy".toList,
             intent := some "cabin_filter".toList }
  else if hasSub "economy".toList t then
    { q with cabinClass := some "Economy".toList }
  else q

/-- Rule 9: multi-day compare. -/
def rule9 (t : List Char) (q : PQuery) : PQuery :=
  if hasSub "compare".toList t ∧ weekdaysList.any (fun p => hasSub p.1 t) then
    { q with intent := some "day_compare".toList }
  else q

/-- Rule 10: cheap fallback intent. -/
def rule10 (t : List Char) (q : PQuery) : PQuery :=
  if hasSub "cheap".toList t ∨ hasSub "lowest".toList t ∨
     hasSub "affordable".toList t then
    { q with intent := some "cheapest".toList }
  else q

/-- Match `(\d+)\s*(cheapest|flights)` anchored at the start of `s`. -/
def limitMatchAt (s : List Char) : Option Nat :=
  let ds := s.takeWhile Char.isDigit
  if ds.isEmpty then none
  else
    let r := (s.drop ds.length).dropWhile isPySpace
    if leadsWith "cheapest".toList r ∨ leadsWith "flights".toList r then
      some (charsToNat ds)
    else none

/-- Leftmost `re.search` for the limit pattern. -/
def limitSearch : List Char → Option Nat
  | [] => none
  | c :: cs =>
      match limitMatchAt (c :: cs) with
      | some r => some r
      | none => limitSearch cs

/-- Rule 11: numeric limit. -/
def rule11 (t : List Char) (q : PQuery) : PQuery :=
  match limitSearch t with
  | some n => { q with limit := some n }
  | none => q

/-- Rule 12: default intent if none was set. -/
def rule12 (q : PQuery) : PQuery :=
  match q.intent with
  | none => { q with intent := some "cheapest".toList }
  | some _ => q

/-- Embedding of `parse_user_query(text)` with `date.today()` passed explicitly:
lower-case the text, then apply the twelve rules in source order. -/
def parse_user_query (text : List Char) (td : PyDate) : PQuery :=
  let t := pyLower text
  rule12 (rule11 t (rule10 t (rule9 t (rule8 t (rule7 t (rule6 t
    (rule5 t (rule4 t (rule3 t td (rule2 t td (rule1 t emptyPQuery)))))))))))

/-! Section: Store lemmas for the merge model -/

/-- Reading an out-of-range reference yields the placeholder. -/
lemma getObj_ge (l : List FlightObj) (j : Nat) (h : l.length ≤ j) :
    getObj l j = blankFlight := by
  simp [getObj, List.getD_eq_getElem?_getD, List.getElem?_eq_none h]

/-- Lemma: `List.set` at a different index leaves a read unchanged. -/
lemma getObj_set_ne (l : List FlightObj) (e j : Nat) (a : FlightObj) (h : e ≠ j) :
    getObj (l.set e a) j = getObj l j := by
  simp [getObj, List.getD_eq_getElem?_getD, List.getElem?_set_ne h]

/-- Lemma: `List.set` at an in-range index is read back. -/
lemma getObj_set_self (l : List FlightObj) (e : Nat) (a : FlightObj)
    (h : e < l.length) :
    getObj (l.set e a) e = a := by
  simp [getObj, List.getD_eq_getElem?_getD, List.getElem?_set_self h]

/-- Appending does not disturb in-range reads. -/
lemma getObj_append_lt (l : List FlightObj) (x : FlightObj) (j : Nat)
    (h : j < l.length) :
    getObj (l ++ [x]) j = getObj l j := by
  simp [getObj, List.getD_eq_getElem?_getD, List.getElem?_append_left h]

/-- Reading the appended cell. -/
lemma getObj_append_len (l : List FlightObj) (x : FlightObj) :
    getObj (l ++ [x]) l.length = x := by
  simp [getObj, List.getD_eq_getElem?_getD, List.getElem?_concat_length]

/-- Reads past the appended cell still yield the placeholder. -/
lemma getObj_append_gt (l : List FlightObj) (x : FlightObj) (j : Nat)
    (h : l.length < j) :
    getObj (l ++ [x]) j = blankFlight := by
  have : (l ++ [x]).length ≤ j := by simp; omega
  simp [getObj, List.getD_eq_getElem?_getD, List.getElem?_eq_none this]

/-- A successful `findSeen` comes from a member of the association list. -/
lemma findSeen_mem {k : MergeKey} {e : Nat} :
    ∀ {l : List (MergeKey × Nat)}, findSeen k l = some e → (k, e) ∈ l := by
  intro l
  induction l with
  | nil => intro h; simp [findSeen] at h
  | cons p rest ih =>
      intro h
      by_cases hk : p.1 = k
      · simp [findSeen, hk] at h
        have hp : (k, e) = p := by cases p; simp_all
        rw [hp]
        exact List.mem_cons_self p rest
      · simp [findSeen, hk] at h
        exact List.mem_cons_of_mem _ (ih h)

/-! Section: Branch equations for `mergeStep` -/

/-- Duplicate key, truthy source already recorded: no-op. -/
lemma mergeStep_found_mem {st : MergeState} {i e : Nat} {s : List Char}
    (hf : findSeen (mergeKeyOf (getObj st.store i)) st.seen = some e)
    (hs : srcOf (getObj st.store i) = some s)
    (hmem : s ∈ (getObj st.store e).region_sources) :
    mergeStep st i = st := by
  simp only [mergeStep]
  rw [hf, hs]
  exact if_pos hmem

/-- Duplicate key, truthy source not yet recorded: append the label to the
canonical copy. -/
lemma mergeStep_found_new {st : MergeState} {i e : Nat} {s : List Char}
    (hf : findSeen (mergeKeyOf (getObj st.store i)) st.seen = some e)
    (hs : srcOf (getObj st.store i) = some s)
    (hmem : s ∉ (getObj st.store e).region_sources) :
    mergeStep st i =
      { st with store := st.store.set e ({ getObj st.store e with
          region_sources := (getObj st.store e).region_sources ++ [s] }) } := by
  simp only [mergeStep]
  rw [hf, hs]
  exact if_neg hmem

/-- Duplicate key, falsy source: no-op. -/
lemma mergeStep_found_nosrc {st : MergeState} {i e : Nat}
    (hf : findSeen (mergeKeyOf (getObj st.store i)) st.seen = some e)
    (hs : srcOf (getObj st.store i) = none) :
    mergeStep st i = st := by
  simp only [mergeStep]
  rw [hf, hs]

/-- Fresh key: allocate the shallow copy, register it, emit it. -/
lemma mergeStep_notfound {st : MergeState} {i : Nat}
    (hf : findSeen (mergeKeyOf (getObj st.store i)) st.seen = none) :
    mergeStep st i =
      { store := st.store ++ [{ getObj st.store i with
                                region_sources := initSources (getObj st.store i) }],
        seen := (mergeKeyOf (getObj st.store i), st.store.length) :: st.seen,
        merged := st.merged ++ [st.store.length] } := by
  simp only [mergeStep]
  rw [hf]

/-! Section: Frame and idempotence invariants for the merge

`GoodState store₀ st` holds for every state reachable from
`⟨store₀, [], []⟩`: the heap only grows, every canonical reference in
`seen` points at an allocated copy (index `≥ store₀.length`), and the
input segment of the heap is untouched. -/

def GoodState (store₀ : List FlightObj) (st : MergeState) : Prop :=
  store₀.length ≤ st.store.length ∧
  (∀ p ∈ st.seen, store₀.length ≤ p.2 ∧ p.2 < st.store.length) ∧
  (∀ i, i < store₀.length → getObj st.store i = getObj store₀ i)

/-- The initial state is good. -/
lemma goodState_init (store₀ : List FlightObj) :
    GoodState store₀ ⟨store₀, [], []⟩ := by
  refine ⟨le_refl _, ?_, ?_⟩
  · intro p hp; simp at hp
  · intro i _; rfl

/-- The step `mergeStep` preserves `GoodState`. -/
lemma goodState_step {store₀ : List FlightObj} {st : MergeState}
    (hg : GoodState store₀ st) (i : Nat) :
    GoodState store₀ (mergeStep st i) := by
  obtain ⟨hlen, hseen, hframe⟩ := hg
  rcases hf : findSeen (mergeKeyOf (getObj st.store i)) st.seen with _ | e
  · rw [mergeStep_notfound hf]
    refine ⟨?_, ?_, ?_⟩
    · simp; omega
    · intro p hp
      rcases List.mem_cons.mp hp with h | h
      · subst h; simp; omega
      · have := hseen p h; simp; omega
    · intro j hj
      rw [getObj_append_lt _ _ _ (lt_of_lt_of_le hj hlen)]
      exact hframe j hj
  · rcases hs : srcOf (getObj st.store i) with _ | s
    · rw [mergeStep_found_nosrc hf hs]; exact ⟨hlen, hseen, hframe⟩
    · by_cases hmem : s ∈ (getObj st.store e).region_sources
      · rw [mergeStep_found_mem hf hs hmem]; exact ⟨hlen, hseen, hframe⟩
      · rw [mergeStep_found_new hf hs hmem]
        have he : store₀.length ≤ e := (hseen _ (findSeen_mem hf)).1
        refine ⟨?_, ?_, ?_⟩
        · simpa using hlen
        · intro p hp; have := hseen p hp; simpa using this
        · intro j hj
          rw [getObj_set_ne _ _ _ _ (by omega)]
          exact hframe j hj

/-- Folding `mergeStep` preserves `GoodState`. -/
lemma goodState_fold {store₀ : List FlightObj} :
    ∀ (js : List Nat) {st : MergeState}, GoodState store₀ st →
      GoodState store₀ (js.foldl mergeStep st) := by
  intro js
  induction js with
  | nil => intro st hg; exact hg
  | cons j rest ih => intro st hg; exact ih (goodState_step hg j)

/-- A recorded `findSeen` hit survives any later step. -/
lemma findSeen_step_mono {st : MergeState} {k : MergeKey} {e : Nat}
    (h : findSeen k st.seen = some e) (i : Nat) :
    findSeen k (mergeStep st i).seen = some e := by
  rcases hf : findSeen (mergeKeyOf (getObj st.store i)) st.seen with _ | e2
  · rw [mergeStep_notfound hf]
    by_cases hk : mergeKeyOf (getObj st.store i) = k
    · rw [hk] at hf; rw [hf] at h; exact absurd h (by simp)
    · simpa [findSeen, hk] using h
  · rcases hs : srcOf (getObj st.store i) with _ | s
    · rw [mergeStep_found_nosrc hf hs]; exact h
    · by_cases hmem : s ∈ (getObj st.store e2).region_sources
      · rw [mergeStep_found_mem hf hs hmem]; exact h
      · rw [mergeStep_found_new hf hs hmem]; exact h

/-- A recorded region label at any reference survives any later step. -/
lemma region_sources_step_mono {st : MergeState} {e : Nat} {s : List Char}
    (h : s ∈ (getObj st.store e).region_sources) (i : Nat) :
    s ∈ (getObj (mergeStep st i).store e).region_sources := by
  rcases hf : findSeen (mergeKeyOf (getObj st.store i)) st.seen with _ | e2
  · rw [mergeStep_notfound hf]
    rcases lt_trichotomy e st.store.length with hl | hl | hl
    · rwa [getObj_append_lt _ _ _ hl]
    · subst hl
      rw [getObj_ge st.store _ (le_refl _)] at h
      simp [blankFlight] at h
    · rw [getObj_append_gt _ _ _ hl]
      rwa [getObj_ge st.store _ (by omega)] at h
  · rcases hs : srcOf (getObj st.store i) with _ | s2
    · rw [mergeStep_found_nosrc hf hs]; exact h
    · by_cases hmem : s2 ∈ (getObj st.store e2).region_sources
      · rw [mergeStep_found_mem hf hs hmem]; exact h
      · rw [mergeStep_found_new hf hs hmem]
        by_cases he : e2 = e
        · subst he
          by_cases hlt : e2 < st.store.length
          · rw [getObj_set_self _ _ _ hlt]
            exact List.mem_append_left _ h
          · have hle : st.store.length ≤ e2 := by omega
            have : (st.store.set e2 ({ getObj st.store e2 with
                region_sources := (getObj st.store e2).region_sources ++ [s2] })).getD e2 blankFlight
                = blankFlight := by
              apply getObj_ge
              simpa using hle
            rw [getObj_ge st.store _ hle] at h
            simp [blankFlight] at h
        · rwa [getObj_set_ne _ _ _ _ he]

/-- Predicate `Settled store₀ st j`: input reference `j` already has a canonical
copy in `seen`, and (when truthy) its region label is recorded there. -/
def Settled (store₀ : List FlightObj) (st : MergeState) (j : Nat) : Prop :=
  ∃ e, findSeen (mergeKeyOf (getObj store₀ j)) st.seen = some e ∧
    ∀ s, srcOf (getObj store₀ j) = some s →
      s ∈ (getObj st.store e).region_sources

/-- Fact: `Settled` survives any later step. -/
lemma settled_step_mono {store₀ : List FlightObj} {st : MergeState} {j : Nat}
    (h : Settled store₀ st j) (i : Nat) :
    Settled store₀ (mergeStep st i) j := by
  obtain ⟨e, hf, hsrc⟩ := h
  exact ⟨e, findSeen_step_mono hf i,
         fun s hs => region_sources_step_mono (hsrc s hs) i⟩

/-- Fact: `Settled` survives any later fold. -/
lemma settled_fold_mono {store₀ : List FlightObj} :
    ∀ (js : List Nat) {st : MergeState} {j : Nat}, Settled store₀ st j →
      Settled store₀ (js.foldl mergeStep st) j := by
  intro js
  induction js with
  | nil => intro st j h; exact h
  | cons i rest ih => intro st j h; exact ih (settled_step_mono h i)

/-- Processing a valid reference settles it. -/
lemma step_settles {store₀ : List FlightObj} {st : MergeState} {j : Nat}
    (hg : GoodState store₀ st) (hj : j < store₀.length) :
    Settled store₀ (mergeStep st j) j := by
  have hobj : getObj st.store j = getObj store₀ j := hg.2.2 j hj
  rcases hf : findSeen (mergeKeyOf (getObj st.store j)) st.seen with _ | e
  · rw [mergeStep_notfound hf]
    refine ⟨st.store.length, ?_, ?_⟩
    · rw [← hobj]; simp [findSeen]
    · intro s hs
      rw [getObj_append_len]
      rw [← hobj] at hs
      simp [initSources, hs]
  · rcases hs : srcOf (getObj st.store j) with _ | s
    · rw [mergeStep_found_nosrc hf hs]
      refine ⟨e, by rw [← hobj]; exact hf, ?_⟩
      intro s2 hs2
      rw [← hobj] at hs2
      rw [hs] at hs2
      exact absurd hs2 (by simp)
    · by_cases hmem : s ∈ (getObj st.store e).region_sources
      · rw [mergeStep_found_mem hf hs hmem]
        refine ⟨e, by rw [← hobj]; exact hf, ?_⟩
        intro s2 hs2
        rw [← hobj, hs] at hs2
        cases hs2
        exact hmem
      · rw [mergeStep_found_new hf hs hmem]
        refine ⟨e, by rw [← hobj]; exact hf, ?_⟩
        intro s2 hs2
        rw [← hobj, hs] at hs2
        cases hs2
        have he : e < st.store.length := (hg.2.1 _ (findSeen_mem hf)).2
        rw [getObj_set_self _ _ _ he]
        exact List.mem_append_right _ (by simp)

/-- After one full pass over valid references, every one of them is
settled. -/
lemma fold_settles {store₀ : List FlightObj} :
    ∀ (js : List Nat) {st : MergeState}, GoodState store₀ st →
      (∀ j ∈ js, j < store₀.length) →
      ∀ j ∈ js, Settled store₀ (js.foldl mergeStep st) j := by
  intro js
  induction js with
  | nil => intro st _ _ j hj; simp at hj
  | cons i rest ih =>
      intro st hg hb j hj
      rcases List.mem_cons.mp hj with h | h
      · subst h
        exact settled_fold_mono rest
          (step_settles hg (hb j (List.mem_cons_self _ _)))
      · exact ih (goodState_step hg i)
          (fun x hx => hb x (List.mem_cons_of_mem _ hx)) j h

/-- Processing an already-settled valid reference is a no-op. -/
lemma settled_step_id {store₀ : List FlightObj} {st : MergeState} {j : Nat}
    (hg : GoodState store₀ st) (hj : j < store₀.length)
    (h : Settled store₀ st j) :
    mergeStep st j = st := by
  obtain ⟨e, hf, hsrc⟩ := h
  have hobj : getObj st.store j = getObj store₀ j := hg.2.2 j hj
  rw [← hobj] at hf hsrc
  rcases hs : srcOf (getObj st.store j) with _ | s
  · exact mergeStep_found_nosrc hf hs
  · exact mergeStep_found_mem hf hs (hsrc s hs)

/-- A second pass over settled valid references is the identity. -/
lemma fold_settled_id {store₀ : List FlightObj} :
    ∀ (js : List Nat) {st : MergeState}, GoodState store₀ st →
      (∀ j ∈ js, j < store₀.length ∧ Settled store₀ st j) →
      js.foldl mergeStep st = st := by
  intro js
  induction js with
  | nil => intro st _ _; rfl
  | cons i rest ih =>
      intro st hg hb
      have hi := hb i (List.mem_cons_self _ _)
      have hid : mergeStep st i = st := settled_step_id hg hi.1 hi.2
      simp only [List.foldl_cons, hid]
      exact ih hg (fun x hx => hb x (List.mem_cons_of_mem _ hx))

/-- Claim C9: `merge_and_dedupe_results` never mutates the dictionaries in
its input list.  The canonical merged record is a fresh shallow copy of the
first-seen occurrence and all `region_sources` accumulation happens on
copies allocated past the input segment of the heap, so every input
dictionary reads back unchanged after aggregation. -/
theorem merge_preserves_inputs (store : List FlightObj) (refs : List Nat)
    (i : Nat) (h : i < store.length) :
    getObj (merge_and_dedupe_results store refs).store i = getObj store i :=
  (goodState_fold refs (goodState_init store)).2.2 i h

/-- Witness for `merge_preserves_inputs`: two references to the same
input dict; the input cell is untouched by the aggregation. -/
theorem merge_preserves_inputs_witness :
    getObj (merge_and_dedupe_results
        [{ blankFlight with provider := some "p".toList,
                            providerFlightId := some "f1".toList,
                            region_source := some "IN".toList }]
        [0, 0]).store 0 =
      getObj [{ blankFlight with provider := some "p".toList,
                                 providerFlightId := some "f1".toList,
                                 region_source := some "IN".toList }] 0 :=
  merge_preserves_inputs _ [0, 0] 0 (by decide)

/-- Claim C5: merge idempotence.  Aggregating the concatenation
`refs ++ refs` produces exactly the same final state — and in particular
the same number of merged results — as aggregating `refs` once: during the
second pass every reference's key is already in `seen` and its region
label is already recorded on the first-seen canonical copy, so every later
duplicate is a no-op (duplicate labels skipped).  This holds whether the
identity key comes from a present `providerFlightId` or from the
`(provider, origin, destination, departureTime, price)` fallback. -/
theorem merge_idempotent (store : List FlightObj) (refs : List Nat)
    (h : ∀ j ∈ refs, j < store.length) :
    merge_and_dedupe_results store (refs ++ refs) =
      merge_and_dedupe_results store refs ∧
    (merge_and_dedupe_results store (refs ++ refs)).merged.length =
      (merge_and_dedupe_results store refs).merged.length := by
  have hmain : merge_and_dedupe_results store (refs ++ refs) =
      merge_and_dedupe_results store refs := by
    unfold merge_and_dedupe_results
    rw [List.foldl_append]
    have hg : GoodState store (refs.foldl mergeStep ⟨store, [], []⟩) :=
      goodState_fold refs (goodState_init store)
    apply fold_settled_id refs hg
    intro j hj
    exact ⟨h j hj, fold_settles refs (goodState_init store) h j hj⟩
  exact ⟨hmain, by rw [hmain]⟩

/-- Witness for `merge_idempotent`: one pid-keyed offer and one pid-less
offer (fallback key), each referenced once; doubling the list changes
nothing. -/
theorem merge_idempotent_witness :
    merge_and_dedupe_results
        [{ blankFlight with provider := some "p".toList,
                            providerFlightId := some "f1".toList,
                            region_source := some "IN".toList },
         { blankFlight with provider := some "p".toList,
                            origin := some "DEL".toList,
                            destination := some "DXB".toList,
                            departureTime := some "T1".toList,
                            price := some 100,
                            region_source := some "AE".toList }]
        ([0, 1] ++ [0, 1]) =
      merge_and_dedupe_results
        [{ blankFlight with provider := some "p".toList,
                            providerFlightId := some "f1".toList,
                            region_source := some "IN".toList },
         { blankFlight with provider := some "p".toList,
                            origin := some "DEL".toList,
                            destination := some "DXB".toList,
                            departureTime := some "T1".toList,
                            price := some 100,
                            region_source := some "AE".toList }]
        [0, 1] :=
  (merge_idempotent _ [0, 1] (by decide)).1

/-- Claim C3 counterexample: with the empty rate table, the
equal-currency identity fails — `normalize_price` returns `None` for
`normalize(100, "INR", "INR", {})` because the emptiness check precedes
the equal-currency short-circuit, so the claimed identity does not hold
for every rate table. -/
theorem normalize_identity_fails_on_empty_table :
    normalize_price 100 "INR".toList "INR".toList [] = none ∧
    (none : Option ℚ) ≠ some 100 := by
  constructor
  · rfl
  · intro h; cases h

/-- Claim C3 (amended): for every amount and every non-empty rate table,
price normalization with equal source and target currencies returns the
amount unchanged; with the empty table it returns `None`. -/
theorem normalize_price_identity (amount : ℚ) (c : List Char)
    (rates : List (List Char × ℚ)) (h : rates ≠ []) :
    normalize_price amount c c rates = some amount := by
  cases rates with
  | nil => exact absurd rfl h
  | cons p rest => simp [normalize_price]

/-- Witness for `normalize_price_identity` at `amount = 100`,
`c = "INR"`, a one-entry rate table. -/
theorem normalize_price_identity_witness :
    normalize_price 100 "INR".toList "INR".toList [("USD".toList, (12 : ℚ) / 1000)]
      = some 100 :=
  normalize_price_identity 100 "INR".toList _ (by decide)

/-- Claim C6: `FlightQuery` construction coerces any intent outside
`{cheapest, price_range, earliest, direct, cabin_filter, day_compare}` to
`"cheapest"` instead of rejecting it, keeps every member of the set
unchanged, and the parser can indeed produce the out-of-set value
`"airline_filter"`. -/
theorem intent_coercion :
    (∀ v : List Char, v ∉ allowedIntents → validate_intent v = "cheapest".toList) ∧
    (∀ v : List Char, v ∈ allowedIntents → validate_intent v = v) ∧
    (parse_user_query "emirates flights".toList ⟨2026, 1, 1⟩).intent
      = some "airline_filter".toList := by
  refine ⟨?_, ?_, ?_⟩
  · intro v hv; simp [validate_intent, hv]
  · intro v hv; simp [validate_intent, hv]
  · rfl

/-- Witness for `intent_coercion`: the parser-producible value
`"airline_filter"` is coerced, the in-set value `"direct"` is kept. -/
theorem intent_coercion_witness :
    validate_intent "airline_filter".toList = "cheapest".toList ∧
    validate_intent "direct".toList = "direct".toList :=
  ⟨intent_coercion.1 "airline_filter".toList (by decide),
   intent_coercion.2.1 "direct".toList (by decide)⟩

/-- Claim C7: region detection from IP never raises and returns the
hard-coded default region on every failure of the external geolocation
call — request exception (timeout, connection error, bad URL template),
non-200 status, malformed (unparseable) body — as well as when no
provider is configured (blank `IP_GEO_PROVIDER`).  Totality of
`detect_region_from_ip` is the never-raises part: every `try/except` path
of the source returns a region. -/
theorem detect_region_failure_defaults :
    (∀ ip provider, detect_region_from_ip ip provider .failure = defaultRegion) ∧
    (∀ ip provider status body, status ≠ 200 →
        detect_region_from_ip ip provider (.response status body) = defaultRegion) ∧
    (∀ ip provider,
        detect_region_from_ip ip provider (.response 200 none) = defaultRegion) ∧
    (∀ ip provider res, pyStrip provider = [] →
        detect_region_from_ip ip provider res = defaultRegion) := by
  refine ⟨?_, ?_, ?_, ?_⟩
  · intro ip provider
    unfold detect_region_from_ip
    split
    · rfl
    · split <;> rfl
  · intro ip provider status body h
    unfold detect_region_from_ip
    split
    · rfl
    · split
      · rfl
      · simp only [if_neg h]
  · intro ip provider
    unfold detect_region_from_ip
    split
    · rfl
    · split
      · rfl
      · simp
  · intro ip provider res h
    by_cases hip : ip = none ∨ ip = some []
    · simp [detect_region_from_ip, hip]
    · simp [detect_region_from_ip, hip, h]

/-- Witness for `detect_region_failure_defaults`: a 404 from the provider
falls back to the default region. -/
theorem detect_region_failure_defaults_witness :
    detect_region_from_ip (some "203.0.113.7".toList)
        "https://ipapi.example/json".toList (.response 404 none) = defaultRegion :=
  detect_region_failure_defaults.2.1 _ _ 404 none (by decide)

/-- Claim C10: a `None` or empty `ip_address` short-circuits to the
default region before the provider configuration or the external call is
even consulted: the result is the default for every provider value and
every outcome of the (never-issued) call. -/
theorem detect_region_no_ip (provider : List Char) (res : GeoResult) :
    detect_region_from_ip none provider res = defaultRegion ∧
    detect_region_from_ip (some []) provider res = defaultRegion := by
  constructor <;> · unfold detect_region_from_ip; rw [if_pos (by simp)]

/-- Claim C1 evaluation at the failing input (HTTP 400 with body
`"Bad Request"` on the first attempt, for both clients): the call does
fail immediately — no sleep, no second attempt — but the deliberately
raised non-retryable error (`REMOTE_API_ERROR` / `MCP_ERROR`, carrying the
HTTP status) is caught by the loop's own generic `except Exception` and
re-raised as the unexpected-error kind (`HTTP_UNEXPECTED_ERROR` /
`MCP_UNEXPECTED_ERROR`) with the default `status_code` 500; the status and
body survive only inside the wrapped message text. -/
theorem http_non_retryable_wrapped_as_unexpected :
    call_http_with_retry "http://mcp".toList
        (fun _ => .response 400 (.ok []) "Bad Request".toList) 3 1 =
      ⟨.error ⟨"Unexpected error: Server returned 400: Bad Request".toList,
               "HTTP_UNEXPECTED_ERROR".toList, 500⟩, [], 1⟩ ∧
    call_mcp_search_with_retry
        (fun _ => .response 400 (.ok []) "Bad Request".toList) 3 1 =
      ⟨.error ⟨"Unexpected error while calling MCP: MCP returned HTTP 400: Bad Request".toList,
               "MCP_UNEXPECTED_ERROR".toList, 500⟩, [], 1⟩ ∧
    "HTTP_UNEXPECTED_ERROR".toList ≠ "REMOTE_API_ERROR".toList ∧
    "MCP_UNEXPECTED_ERROR".toList ≠ "MCP_ERROR".toList := by
  refine ⟨rfl, rfl, by decide, by decide⟩

/-- Claim C2 counterexample: with `max_retries = 3`, `base_delay = 1` and
every attempt answered by a retryable 503, both clients sleep three times
(`1`, `2`, `4` seconds) — the backoff sleep also runs after the final
failed attempt, so `maxRetries` sleeps occur, not `maxRetries - 1`. -/
theorem retry_sleeps_after_final_attempt :
    (call_http_with_retry "http://mcp".toList
        (fun _ => .response 503 (.ok []) []) 3 1).sleeps = [1, 2, 4] ∧
    (call_mcp_search_with_retry
        (fun _ => .response 503 (.ok []) []) 3 1).sleeps = [1, 2, 4] ∧
    ([(1 : ℚ), 2, 4].length ≠ 3 - 1) := by
  refine ⟨?_, ?_, by decide⟩ <;>
    · simp [call_http_with_retry, call_mcp_search_with_retry, retryGo]
      norm_num


/-- When every attempt's outcome is retryable, the loop at attempt
`e + 1` with `r` iterations left sleeps once per iteration —
`base_delay * 2 ^ (attempt - 1)` before continuing, including on the last
iteration — and then raises the exhaustion error. -/
lemma retryGo_all_retryable (cfg : RetryCfg) (outcomes : Nat → AttemptOutcome)
    (base_delay : ℚ) (hout : ∀ i, retryableOutcome (outcomes i)) :
    ∀ (r e : Nat),
      retryGo cfg outcomes base_delay (e + 1) r =
        ⟨.error cfg.exhaustedErr,
         (List.range r).map (fun i => base_delay * 2 ^ (e + i)), r⟩ := by
  intro r
  induction r with
  | zero => intro e; simp [retryGo]
  | succ n ih =>
      intro e
      have hlist : (List.range (n + 1)).map (fun i => base_delay * 2 ^ (e + i)) =
          base_delay * 2 ^ e ::
            (List.range n).map (fun i => base_delay * 2 ^ (e + 1 + i)) := by
        rw [List.range_succ_eq_map, List.map_cons, List.map_map]
        refine congrArg₂ _ (by norm_num) ?_
        apply List.map_congr_left
        intro a _
        simp only [Function.comp_apply]
        congr 1
        congr 1
        omega
      have h := hout (e + 1)
      rcases hoa : outcomes (e + 1) with ⟨status, jsonBody, text⟩ | _ | _ | msg
      · rw [hoa] at h
        have hret : status = 429 ∨ status = 502 ∨ status = 503 ∨ status = 504 := h
        have h200 : ¬ status = 200 := by
          rcases hret with h2 | h2 | h2 | h2 <;> omega
        simp only [retryGo, hoa, if_neg h200, ih (e + 1)]
        rw [if_pos hret, hlist]
        norm_num
      · simp only [retryGo, hoa, ih (e + 1)]
        rw [hlist]
        norm_num
      · simp only [retryGo, hoa, ih (e + 1)]
        rw [hlist]
        norm_num
      · rw [hoa] at h
        exact absurd h (by simp [retryableOutcome])

/-- Claim C2 (amended): when every one of the `maxRetries` attempts ends
with a retryable outcome, both clients apply the exponential backoff
`baseDelay * 2 ^ (attempt - 1)` after every failed retryable attempt —
including the final one — so exactly `maxRetries` backoff sleeps (of
durations `baseDelay * 2 ^ 0, ..., baseDelay * 2 ^ (maxRetries - 1)`)
occur before the exhaustion error is raised, not `maxRetries - 1`. -/
theorem retry_exhaustion_backoff (url : List Char)
    (outcomes : Nat → AttemptOutcome) (max_retries : Nat) (base_delay : ℚ)
    (hout : ∀ i, retryableOutcome (outcomes i)) :
    call_http_with_retry url outcomes max_retries base_delay =
      ⟨.error (baseToolCfg url max_retries).exhaustedErr,
       (List.range max_retries).map (fun i => base_delay * 2 ^ i), max_retries⟩ ∧
    call_mcp_search_with_retry outcomes max_retries base_delay =
      ⟨.error mcpToolCfg.exhaustedErr,
       (List.range max_retries).map (fun i => base_delay * 2 ^ i), max_retries⟩ ∧
    (call_http_with_retry url outcomes max_retries base_delay).sleeps.length
      = max_retries := by
  have hmap : (List.range max_retries).map (fun i => base_delay * 2 ^ (0 + i)) =
      (List.range max_retries).map (fun i => base_delay * 2 ^ i) := by
    apply List.map_congr_left
    intro a _
    norm_num
  have h1 : call_http_with_retry url outcomes max_retries base_delay =
      ⟨.error (baseToolCfg url max_retries).exhaustedErr,
       (List.range max_retries).map (fun i => base_delay * 2 ^ i), max_retries⟩ := by
    unfold call_http_with_retry
    rw [show (1 : Nat) = 0 + 1 from rfl,
        retryGo_all_retryable _ outcomes base_delay hout max_retries 0, hmap]
  refine ⟨h1, ?_, ?_⟩
  · unfold call_mcp_search_with_retry
    rw [show (1 : Nat) = 0 + 1 from rfl,
        retryGo_all_retryable _ outcomes base_delay hout max_retries 0, hmap]
  · rw [h1]
    simp

/-- Witness for `retry_exhaustion_backoff`: three timeouts with base
delay 1. -/
theorem retry_exhaustion_backoff_witness :
    call_http_with_retry "http://mcp".toList (fun _ => .timeout) 3 1 =
      ⟨.error (baseToolCfg "http://mcp".toList 3).exhaustedErr,
       (List.range 3).map (fun i => (1 : ℚ) * 2 ^ i), 3⟩ :=
  (retry_exhaustion_backoff "http://mcp".toList (fun _ => .timeout) 3 1
    (fun _ => trivial)).1

/-! Section: Field-preservation lemmas for the parser rules

Only rule 1 writes `origin`/`destination` and only rule 2 writes
`departDate`; the following lemmas record that every other rule leaves
those fields untouched. -/

lemma rule1_departDate (t : List Char) (q : PQuery) :
    (rule1 t q).departDate = q.departDate := by
  simp only [rule1]
  repeat' split
  all_goals rfl

lemma rule2_origin (t : List Char) (td : PyDate) (q : PQuery) :
    (rule2 t td q).origin = q.origin := by
  simp only [rule2]
  repeat' split
  all_goals rfl

lemma rule2_destination (t : List Char) (td : PyDate) (q : PQuery) :
    (rule2 t td q).destination = q.destination := by
  simp only [rule2]
  repeat' split
  all_goals rfl

lemma rule3_origin (t : List Char) (td : PyDate) (q : PQuery) :
    (rule3 t td q).origin = q.origin := by
  simp only [rule3]
  repeat' split
  all_goals rfl

lemma rule3_destination (t : List Char) (td : PyDate) (q : PQuery) :
    (rule3 t td q).destination = q.destination := by
  simp only [rule3]
  repeat' split
  all_goals rfl

lemma rule3_departDate (t : List Char) (td : PyDate) (q : PQuery) :
    (rule3 t td q).departDate = q.departDate := by
  simp only [rule3]
  repeat' split
  all_goals rfl

lemma rule4_origin (t : List Char) (q : PQuery) :
    (rule4 t q).origin = q.origin := by
  simp only [rule4]
  repeat' split
  all_goals rfl

lemma rule4_destination (t : List Char) (q : PQuery) :
    (rule4 t q).destination = q.destination := by
  simp only [rule4]
  repeat' split
  all_goals rfl

lemma rule4_departDate (t : List Char) (q : PQuery) :
    (rule4 t q).departDate = q.departDate := by
  simp only [rule4]
  repeat' split
  all_goals rfl

lemma rule5_origin (t : List Char) (q : PQuery) :
    (rule5 t q).origin = q.origin := by
  simp only [rule5]
  repeat' split
  all_goals rfl

lemma rule5_destination (t : List Char) (q : PQuery) :
    (rule5 t q).destination = q.destination := by
  simp only [rule5]
  repeat' split
  all_goals rfl

lemma rule5_departDate (t : List Char) (q : PQuery) :
    (rule5 t q).departDate = q.departDate := by
  simp only [rule5]
  repeat' split
  all_goals rfl

lemma rule7_origin (t : List Char) (q : PQuery) :
    (rule7 t q).origin = q.origin := by
  simp only [rule7]
  repeat' split
  all_goals rfl

lemma rule7_destination (t : List Char) (q : PQuery) :
    (rule7 t q).destination = q.destination := by
  simp only [rule7]
  repeat' split
  all_goals rfl

lemma rule7_departDate (t : List Char) (q : PQuery) :
    (rule7 t q).departDate = q.departDate := by
  simp only [rule7]
  repeat' split
  all_goals rfl

lemma rule8_origin (t : List Char) (q : PQuery) :
    (rule8 t q).origin = q.origin := by
  simp only [rule8]
  repeat' split
  all_goals rfl

lemma rule8_destination (t : List Char) (q : PQuery) :
    (rule8 t q).destination = q.destination := by
  simp only [rule8]
  repeat' split
  all_goals rfl

lemma rule8_departDate (t : List Char) (q : PQuery) :
    (rule8 t q).departDate = q.departDate := by
  simp only [rule8]
  repeat' split
  all_goals rfl

lemma rule9_origin (t : List Char) (q : PQuery) :
    (rule9 t q).origin = q.origin := by
  simp only [rule9]
  repeat' split
  all_goals rfl

lemma rule9_destination (t : List Char) (q : PQuery) :
    (rule9 t q).destination = q.destination := by
  simp only [rule9]
  repeat' split
  all_goals rfl

lemma rule9_departDate (t : List Char) (q : PQuery) :
    (rule9 t q).departDate = q.departDate := by
  simp only [rule9]
  repeat' split
  all_goals rfl

lemma rule10_origin (t : List Char) (q : PQuery) :
    (rule10 t q).origin = q.origin := by
  simp only [rule10]
  repeat' split
  all_goals rfl

lemma rule10_destination (t : List Char) (q : PQuery) :
    (rule10 t q).destination = q.destination := by
  simp only [rule10]
  repeat' split
  all_goals rfl

lemma rule10_departDate (t : List Char) (q : PQuery) :
    (rule10 t q).departDate = q.departDate := by
  simp only [rule10]
  repeat' split
  all_goals rfl

lemma rule11_origin (t : List Char) (q : PQuery) :
    (rule11 t q).origin = q.origin := by
  simp only [rule11]
  repeat' split
  all_goals rfl

lemma rule11_destination (t : List Char) (q : PQuery) :
    (rule11 t q).destination = q.destination := by
  simp only [rule11]
  repeat' split
  all_goals rfl

lemma rule11_departDate (t : List Char) (q : PQuery) :
    (rule11 t q).departDate = q.departDate := by
  simp only [rule11]
  repeat' split
  all_goals rfl

lemma rule6_origin (t : List Char) (q : PQuery) :
    (rule6 t q).origin = q.origin := by
  simp only [rule6, airlineKeywords, List.foldl_cons, List.foldl_nil]
  repeat' split
  all_goals rfl

lemma rule6_destination (t : List Char) (q : PQuery) :
    (rule6 t q).destination = q.destination := by
  simp only [rule6, airlineKeywords, List.foldl_cons, List.foldl_nil]
  repeat' split
  all_goals rfl

lemma rule6_departDate (t : List Char) (q : PQuery) :
    (rule6 t q).departDate = q.departDate := by
  simp only [rule6, airlineKeywords, List.foldl_cons, List.foldl_nil]
  repeat' split
  all_goals rfl

lemma rule12_origin (q : PQuery) :
    (rule12 q).origin = q.origin := by
  simp only [rule12]
  repeat' split
  all_goals rfl

lemma rule12_destination (q : PQuery) :
    (rule12 q).destination = q.destination := by
  simp only [rule12]
  repeat' split
  all_goals rfl

lemma rule12_departDate (q : PQuery) :
    (rule12 q).departDate = q.departDate := by
  simp only [rule12]
  repeat' split
  all_goals rfl

/-- Claim C8: whenever the route pattern
`from ([a-zA-Z\s]+) to ([a-zA-Z\s]+)` matches the lower-cased text with
captures `x` and `y`, the parsed query's `origin` is `x` trimmed and
upper-cased and its `destination` is `y` trimmed and upper-cased — no
later rule overwrites them. -/
theorem route_extraction (text : List Char) (td : PyDate) (x y : List Char)
    (h : routeSearch (pyLower text) = some (x, y)) :
    (parse_user_query text td).origin = some (pyUpper (pyStrip x)) ∧
    (parse_user_query text td).destination = some (pyUpper (pyStrip y)) := by
  constructor
  · simp only [parse_user_query, rule12_origin, rule11_origin, rule10_origin,
      rule9_origin, rule8_origin, rule7_origin, rule6_origin, rule5_origin,
      rule4_origin, rule3_origin, rule2_origin]
    simp [rule1, h]
  · simp only [parse_user_query, rule12_destination, rule11_destination,
      rule10_destination, rule9_destination, rule8_destination,
      rule7_destination, rule6_destination, rule5_destination,
      rule4_destination, rule3_destination, rule2_destination]
    simp [rule1, h]

/-- Witness for `route_extraction` on `"from delhi to mumbai"`. -/
theorem route_extraction_witness :
    (parse_user_query "from delhi to mumbai".toList ⟨2026, 1, 1⟩).origin
        = some (pyUpper (pyStrip "delhi".toList)) ∧
    (parse_user_query "from delhi to mumbai".toList ⟨2026, 1, 1⟩).destination
        = some (pyUpper (pyStrip "mumbai".toList)) :=
  route_extraction "from delhi to mumbai".toList ⟨2026, 1, 1⟩
    "delhi".toList "mumbai".toList (by rfl)

/-- The date the weekday-name rule would store: the next occurrence of the
first listed weekday name found in the text. -/
def weekdayValue (t : List Char) (td : PyDate) : Option Int :=
  (firstWeekdayIn t).map (fun w => dayNum td + ((w + 7 - pyWeekday td) % 7 : Nat))

/-- The date the calendar-date rule would store: the `strptime` result of
the first `on <day> <month>` match, `none` if the pattern is absent or its
parse fails. -/
def calendarValue (t : List Char) (td : PyDate) : Option Int :=
  match onSearch t with
  | some dw => calParse td.year dw.1 dw.2
  | none => none

/-- Rule 2 in its final `else` branch: the calendar-date rule, evaluated
after the weekday-name loop, overwrites `departDate` when its parse
succeeds; on parse failure or no match the weekday value (or the previous
`departDate`) survives. -/
lemma rule2_else (t : List Char) (td : PyDate) (q : PQuery)
    (h1 : hasSub "today".toList t = false)
    (h2 : hasSub "tomorrow".toList t = false)
    (h3 : hasSub "next weekend".toList t = false) :
    (rule2 t td q).departDate =
      (calendarValue t td).orElse
        (fun _ => (weekdayValue t td).orElse (fun _ => q.departDate)) := by
  simp only [rule2, h1, h2, h3, Bool.false_eq_true, if_false]
  rcases ho : onSearch t with _ | ⟨d, w⟩ <;>
    rcases hw : firstWeekdayIn t with _ | wd <;>
      simp only [calendarValue, weekdayValue, ho, hw, Option.map_some,
        Option.map_none, Option.orElse_none, Option.none_orElse]
  · rfl
  · rfl
  · rcases hc : calParse td.year d w with _ | dn <;> simp [hc, Option.orElse]
  · rcases hc : calParse td.year d w with _ | dn <;> simp [hc, Option.orElse]

/-- Claim C4 (amended): the `today` / `tomorrow` / `next weekend` phrase
rules are mutually exclusive, in that priority order.  When none of them
fires, the weekday-name rule and the calendar-date rule are evaluated
independently, and a *successful* `on <day> <month>` parse overwrites any
weekday-derived date (the calendar rule wins, not the weekday rule); a
calendar parse failure is silently ignored, leaving the weekday-derived
date, or no date at all, in place. -/
theorem date_rule_priority (text : List Char) (td : PyDate) :
    (hasSub "today".toList (pyLower text) = true →
       (parse_user_query text td).departDate = some (dayNum td)) ∧
    (hasSub "today".toList (pyLower text) = false →
     hasSub "tomorrow".toList (pyLower text) = true →
       (parse_user_query text td).departDate = some (dayNum td + 1)) ∧
    (hasSub "today".toList (pyLower text) = false →
     hasSub "tomorrow".toList (pyLower text) = false →
     hasSub "next weekend".toList (pyLower text) = true →
       (parse_user_query text td).departDate
         = some (dayNum td + ((5 + 7 - pyWeekday td) % 7 : Nat))) ∧
    (hasSub "today".toList (pyLower text) = false →
     hasSub "tomorrow".toList (pyLower text) = false →
     hasSub "next weekend".toList (pyLower text) = false →
       (parse_user_query text td).departDate
         = (calendarValue (pyLower text) td).orElse
             (fun _ => weekdayValue (pyLower text) td)) := by
  have hred : (parse_user_query text td).departDate
      = (rule2 (pyLower text) td (rule1 (pyLower text) emptyPQuery)).departDate := by
    simp only [parse_user_query, rule12_departDate, rule11_departDate,
      rule10_departDate, rule9_departDate, rule8_departDate, rule7_departDate,
      rule6_departDate, rule5_departDate, rule4_departDate, rule3_departDate]
  have hq1 : (rule1 (pyLower text) emptyPQuery).departDate = none := by
    rw [rule1_departDate]; rfl
  refine ⟨?_, ?_, ?_, ?_⟩
  · intro h1
    rw [hred]
    simp only [rule2]
    rw [if_pos h1]
  · intro h1 h2
    rw [hred]
    simp only [rule2]
    rw [if_neg (by rw [h1]; simp), if_pos h2]
  · intro h1 h2 h3
    rw [hred]
    simp only [rule2]
    rw [if_neg (by rw [h1]; simp), if_neg (by rw [h2]; simp), if_pos h3]
  · intro h1 h2 h3
    rw [hred, rule2_else _ _ _ h1 h2 h3, hq1]
    rcases hc : calendarValue (pyLower text) td with _ | dn <;>
      rcases hw : weekdayValue (pyLower text) td with _ | wv <;>
        simp [Option.orElse]

/-- Witness for `date_rule_priority`: on `"fly on 15 january monday"`
(no `today`/`tomorrow`/`next weekend` phrase) the parsed date is the
calendar value, falling back to the weekday value only when absent. -/
theorem date_rule_priority_witness :
    (parse_user_query "fly on 15 january monday".toList ⟨2026, 3, 2⟩).departDate
      = (calendarValue (pyLower "fly on 15 january monday".toList) ⟨2026, 3, 2⟩).orElse
          (fun _ => weekdayValue (pyLower "fly on 15 january monday".toList) ⟨2026, 3, 2⟩) :=
  (date_rule_priority "fly on 15 january monday".toList ⟨2026, 3, 2⟩).2.2.2
    (by rfl) (by rfl) (by rfl)

/-- Claim C4 counterexample: on `"fly on 15 january monday"` with
reference date 2026-03-02 (a Monday) the weekday rule fires
(`firstWeekdayIn` hits `monday`, whose next occurrence is the reference
date itself), yet the final `departDate` is the calendar rule's
2026-01-15 — a different day — so the listed priority (weekday over
calendar date, one rule firing) does not hold. -/
theorem date_rules_not_exclusive :
    firstWeekdayIn (pyLower "fly on 15 january monday".toList) = some 0 ∧
    weekdayValue (pyLower "fly on 15 january monday".toList) ⟨2026, 3, 2⟩
      = some (daysFromCivil 2026 3 2) ∧
    (parse_user_query "fly on 15 january monday".toList ⟨2026, 3, 2⟩).departDate
      = some (daysFromCivil 2026 1 15) ∧
    daysFromCivil 2026 1 15 ≠ daysFromCivil 2026 3 2 := by
  refine ⟨by rfl, by rfl, by rfl, by decide⟩
